import Mathlib

/-!
# Verification of the amwaj-media per-session audio pipeline

Shallow embedding of the core data structures and operations of the
repository (jitter buffer, RTP packet codec, turn-detection engine,
voice-activity detector, multi-signal fusion, PCM conversions, and the
distributed session registry), together with theorems settling the
specification claims about them.

Machine integers are modelled as `Nat`/`Int` with explicit `% 2^w` where the
source relies on wrapping; `f32` quantities that the claims constrain only
through order and clamping are modelled as `ℚ`; fallible operations return
`Except String`.
-/

namespace Amwaj

/-! ## Jitter buffer (src/webrtc/jitter_buffer.rs)

The `BTreeMap<u16, Vec<u8>>` is modelled as an association list sorted by
strictly increasing key.  Payload bytes are `List Nat`.
-/

/-- `BTreeMap::insert`: insert into the sorted association list, replacing the
value if the key is already present. -/
def btInsert (k : Nat) (v : List Nat) : List (Nat × List Nat) → List (Nat × List Nat)
  | [] => [(k, v)]
  | (k2, v2) :: t =>
      if k < k2 then (k, v) :: (k2, v2) :: t
      else if k = k2 then (k, v) :: t
      else (k2, v2) :: btInsert k v t

/-- One pass of the eviction loop `while buffer.len() > max_packets { remove
first }`, fuelled by the initial length so that it is structurally
recursive.  Each iteration removes the first (minimum-key) entry. -/
def shrinkAux : Nat → List (Nat × List Nat) → Nat → List (Nat × List Nat)
  | 0, l, _ => l
  | fuel + 1, l, m => if l.length > m then shrinkAux fuel l.tail m else l

/-- The eviction loop of `JitterBuffer::insert`. -/
def shrink (l : List (Nat × List Nat)) (m : Nat) : List (Nat × List Nat) :=
  shrinkAux l.length l m

/-- `JitterBuffer` state (counters are `u64`, far from overflow; sequence
numbers are `u16` values, i.e. naturals `< 65536`). -/
structure JitterBuffer where
  buffer : List (Nat × List Nat)
  max_size_ms : Nat
  sample_rate : Nat
  last_sequence : Option Nat
  packets_received : Nat
  packets_lost : Nat
deriving DecidableEq, Repr

namespace JitterBuffer

/-- `JitterBuffer::new`. -/
def new (max_size_ms sample_rate : Nat) : JitterBuffer :=
  { buffer := []
    max_size_ms := max_size_ms
    sample_rate := sample_rate
    last_sequence := none
    packets_received := 0
    packets_lost := 0 }

/-- `JitterBuffer::max_packets`:
`((max_size_ms * (sample_rate / 320)) / 1000).max(10)` (integer division). -/
def max_packets (jb : JitterBuffer) : Nat :=
  Nat.max ((jb.max_size_ms * (jb.sample_rate / 320)) / 1000) 10

/-- `JitterBuffer::insert`.  `wrapping_add(1)` is `(· + 1) % 65536` and
`wrapping_sub` is `(a + 65536 - b) % 65536` on `u16` values. -/
def insert (jb : JitterBuffer) (sequence_num : Nat) (data : List Nat) : JitterBuffer :=
  let jb1 := { jb with packets_received := jb.packets_received + 1 }
  let jb2 :=
    match jb1.last_sequence with
    | some last_seq =>
        let expected := (last_seq + 1) % 65536
        if sequence_num ≠ expected ∧ sequence_num > expected then
          { jb1 with packets_lost :=
              jb1.packets_lost + (sequence_num + 65536 - expected) % 65536 }
        else jb1
    | none => jb1
  let buf := btInsert sequence_num data jb2.buffer
  { jb2 with buffer := shrink buf jb2.max_packets }

end JitterBuffer

/-- Apply a sequence of `insert` calls. -/
def applyInserts (jb : JitterBuffer) (l : List (Nat × List Nat)) : JitterBuffer :=
  l.foldl (fun b p => b.insert p.1 p.2) jb

/-- Concrete jitter buffer used when exercising the claims: fresh buffer with
`max_size_ms = 100`, `sample_rate = 16000`, after one frame with sequence `5`
has been delivered (`last_sequence = some 5`). -/
def jbC1 : JitterBuffer :=
  { buffer := []
    max_size_ms := 100
    sample_rate := 16000
    last_sequence := some 5
    packets_received := 1
    packets_lost := 0 }

/-- Concrete full jitter buffer (10 resident packets, derived capacity 10)
used to exercise the eviction claim. -/
def jbC8 : JitterBuffer :=
  { buffer := [(0, []), (1, []), (2, []), (3, []), (4, []),
               (5, []), (6, []), (7, []), (8, []), (9, [])]
    max_size_ms := 0
    sample_rate := 0
    last_sequence := none
    packets_received := 0
    packets_lost := 0 }

/-! ## RTP packets (src/webrtc/rtp_handler.rs)

Packet bytes are `List Nat` with each element a `u8` value.  `u16::from_be_bytes`
and `u32::from_be_bytes` are big-endian base-256 recomposition, and
`to_be_bytes` the corresponding digit extraction.
-/

structure RtpPacket where
  version : Nat
  padding : Bool
  extension : Bool
  csrc_count : Nat
  marker : Bool
  payload_type : Nat
  sequence_number : Nat
  timestamp : Nat
  ssrc : Nat
  payload : List Nat
deriving DecidableEq, Repr

namespace RtpPacket

/-- `RtpPacket::parse`.  The source first rejects inputs shorter than 12 bytes
and then reads `data[0]..data[11]`; here the twelve header bytes are bound by
the match (the fallback branch is exactly the `data.len() < 12` error).  The
source's final check `data.len() < 12 + 4*cc` is `rest.length < 4*cc`, and
`data[12 + 4*cc ..]` is `rest.drop (4*cc)`. -/
def parse (data : List Nat) : Except String RtpPacket :=
  match data with
  | b0 :: b1 :: b2 :: b3 :: b4 :: b5 :: b6 :: b7 :: b8 :: b9 :: b10 :: b11 :: rest =>
      let version := (b0 >>> 6) &&& 3
      if version ≠ 2 then Except.error "Invalid RTP version"
      else
        let padding := b0 &&& 32 ≠ 0
        let extension := b0 &&& 16 ≠ 0
        let csrc_count := b0 &&& 15
        let marker := b1 &&& 128 ≠ 0
        let payload_type := b1 &&& 127
        let sequence_number := 256 * b2 + b3
        let timestamp := 16777216 * b4 + 65536 * b5 + 256 * b6 + b7
        let ssrc := 16777216 * b8 + 65536 * b9 + 256 * b10 + b11
        if rest.length < csrc_count * 4 then Except.error "RTP packet header incomplete"
        else
          Except.ok
            { version := version
              padding := decide (padding)
              extension := decide (extension)
              csrc_count := csrc_count
              marker := decide (marker)
              payload_type := payload_type
              sequence_number := sequence_number
              timestamp := timestamp
              ssrc := ssrc
              payload := rest.drop (csrc_count * 4) }
  | _ => Except.error "RTP packet too short"

/-- `RtpPacket::serialize`.  `version << 6` is a `u8` shift, hence the
`% 256`; `to_be_bytes` is written as base-256 digit extraction. -/
def serialize (p : RtpPacket) : List Nat :=
  let byte0 := ((p.version <<< 6) % 256) ||| (if p.padding then 32 else 0)
      ||| (if p.extension then 16 else 0) ||| (p.csrc_count &&& 15)
  let byte1 := (if p.marker then 128 else 0) ||| (p.payload_type &&& 127)
  byte0 :: byte1 ::
  (p.sequence_number / 256 % 256) :: (p.sequence_number % 256) ::
  (p.timestamp / 16777216 % 256) :: (p.timestamp / 65536 % 256) ::
  (p.timestamp / 256 % 256) :: (p.timestamp % 256) ::
  (p.ssrc / 16777216 % 256) :: (p.ssrc / 65536 % 256) ::
  (p.ssrc / 256 % 256) :: (p.ssrc % 256) :: p.payload

end RtpPacket

/-- Concrete packet with one CSRC slot declared (`csrc_count = 1`) but, as the
structure has no CSRC list, nothing for `serialize` to emit in its place. -/
def pC2 : RtpPacket :=
  { version := 2
    padding := false
    extension := false
    csrc_count := 1
    marker := false
    payload_type := 0
    sequence_number := 0
    timestamp := 0
    ssrc := 0
    payload := [1, 2, 3, 4, 5] }

/-- What `parse` actually recovers from `pC2.serialize`: the first four
payload bytes are consumed as the (never serialised) CSRC word. -/
def pC2parsed : RtpPacket :=
  { version := 2
    padding := false
    extension := false
    csrc_count := 1
    marker := false
    payload_type := 0
    sequence_number := 0
    timestamp := 0
    ssrc := 0
    payload := [5] }

/-! ## Audio features (src/audio/features.rs)

Only the record is needed by the claims; the `f32` fields are modelled as `ℚ`.
-/

structure AudioFeatures where
  volume_db : ℚ
  pitch_hz : ℚ
  spectral_centroid : ℚ
  zero_crossing_rate : ℚ
deriving DecidableEq, Repr

/-! ## Turn detection (src/detection/turn_detection.rs) -/

inductive TurnState where
  | Idle
  | Speaking
  | SilenceGap
deriving DecidableEq, Repr

inductive TurnEvent where
  | None
  | TurnStarted
  | TurnEnded (duration : Nat)
  | BargeIn
deriving DecidableEq, Repr

structure TurnDetectionConfig where
  vad_threshold_enter : ℚ
  vad_threshold_exit : ℚ
  min_speech_duration_ms : Nat
  max_silence_duration_ms : Nat
  volume_threshold_db : ℚ
deriving DecidableEq, Repr

structure TurnDetectionEngine where
  state : TurnState
  vad_history : List ℚ
  silence_duration_ms : Nat
  speech_duration_ms : Nat
  max_history_size : Nat
  config : TurnDetectionConfig
  barge_in_pending : Bool
deriving DecidableEq, Repr

namespace TurnDetectionEngine

/-- `TurnDetectionEngine::new`. -/
def new (config : TurnDetectionConfig) : TurnDetectionEngine :=
  { state := TurnState.Idle
    vad_history := []
    silence_duration_ms := 0
    speech_duration_ms := 0
    max_history_size := 50
    config := config
    barge_in_pending := false }

/-- `TurnDetectionEngine::handle_idle`. -/
def handle_idle (e : TurnDetectionEngine) (vad_prob : ℚ) (features : AudioFeatures)
    (frame_duration_ms : Nat) : TurnEvent × TurnDetectionEngine :=
  if vad_prob > e.config.vad_threshold_enter ∧
      features.volume_db > e.config.volume_threshold_db then
    (TurnEvent.TurnStarted,
      { e with state := TurnState.Speaking, speech_duration_ms := frame_duration_ms })
  else
    (TurnEvent.None, e)

/-- `TurnDetectionEngine::handle_speaking`. -/
def handle_speaking (e : TurnDetectionEngine) (vad_prob : ℚ)
    (frame_duration_ms : Nat) : TurnEvent × TurnDetectionEngine :=
  let e := { e with speech_duration_ms := e.speech_duration_ms + frame_duration_ms }
  if vad_prob < e.config.vad_threshold_exit then
    (TurnEvent.None,
      { e with state := TurnState.SilenceGap, silence_duration_ms := frame_duration_ms })
  else
    (TurnEvent.None, e)

/-- `TurnDetectionEngine::handle_silence_gap`. -/
def handle_silence_gap (e : TurnDetectionEngine) (vad_prob : ℚ)
    (frame_duration_ms : Nat) : TurnEvent × TurnDetectionEngine :=
  let e := { e with silence_duration_ms := e.silence_duration_ms + frame_duration_ms }
  if vad_prob > e.config.vad_threshold_enter then
    (TurnEvent.None,
      { e with state := TurnState.Speaking,
               speech_duration_ms := e.speech_duration_ms + frame_duration_ms })
  else if e.silence_duration_ms ≥ e.config.max_silence_duration_ms then
    let duration := e.speech_duration_ms
    let e := { e with state := TurnState.Idle, speech_duration_ms := 0,
                      silence_duration_ms := 0 }
    if duration ≥ e.config.min_speech_duration_ms then
      (TurnEvent.TurnEnded duration, e)
    else
      (TurnEvent.None, e)
  else
    (TurnEvent.None, e)

/-- `TurnDetectionEngine::process`: push to the rolling VAD history (dropping
the front when over `max_history_size`, as `Vec::remove(0)` does), then
dispatch on the current state. -/
def process (e : TurnDetectionEngine) (vad_prob : ℚ) (features : AudioFeatures)
    (frame_duration_ms : Nat) : TurnEvent × TurnDetectionEngine :=
  let h := e.vad_history ++ [vad_prob]
  let h := if h.length > e.max_history_size then h.drop 1 else h
  let e := { e with vad_history := h }
  match e.state with
  | TurnState.Idle => handle_idle e vad_prob features frame_duration_ms
  | TurnState.Speaking => handle_speaking e vad_prob frame_duration_ms
  | TurnState.SilenceGap => handle_silence_gap e vad_prob frame_duration_ms

/-- `TurnDetectionEngine::signal_potential_barge_in`. -/
def signal_potential_barge_in (e : TurnDetectionEngine) : TurnDetectionEngine :=
  if e.state ≠ TurnState.Idle then { e with barge_in_pending := true } else e

/-- `TurnDetectionEngine::check_barge_in` (returns the flag result together
with the updated engine). -/
def check_barge_in (e : TurnDetectionEngine) : Bool × TurnDetectionEngine :=
  if e.barge_in_pending = true ∧ e.state = TurnState.Speaking then
    (true, { e with barge_in_pending := false })
  else
    (false, e)

end TurnDetectionEngine

/-- One frame of input to `process`: VAD probability, features, frame length. -/
def TurnInput : Type := ℚ × AudioFeatures × Nat

/-- Single step of the engine on one input frame. -/
def stepEngine (e : TurnDetectionEngine) (i : TurnInput) :
    TurnEvent × TurnDetectionEngine :=
  e.process i.1 i.2.1 i.2.2

/-- The list of events emitted while processing a frame sequence. -/
def runEvents (e : TurnDetectionEngine) : List TurnInput → List TurnEvent
  | [] => []
  | i :: rest => (stepEngine e i).1 :: runEvents (stepEngine e i).2 rest

/-- `true` when no event in the list is a `TurnEnded`. -/
def noTurnEnded (evs : List TurnEvent) : Bool :=
  evs.all fun ev =>
    match ev with
    | TurnEvent.TurnEnded _ => false
    | _ => true

/-- `true` when, at every step of the trace at which the engine returns from
`SilenceGap` to `Idle`, the speech accumulated so far is strictly below
`min_speech_duration_ms` (the hypothesis of claim C3). -/
def shortSpeechTrace (e : TurnDetectionEngine) : List TurnInput → Bool
  | [] => true
  | i :: rest =>
      let r := stepEngine e i
      (if e.state = TurnState.SilenceGap ∧ r.2.state = TurnState.Idle then
        decide (e.speech_duration_ms < e.config.min_speech_duration_ms)
      else true) && shortSpeechTrace r.2 rest

/-- `true` when every `SilenceGap → Idle` return along the trace emits
`TurnEvent.None` and leaves both duration counters at zero. -/
def silenceReturnsClean (e : TurnDetectionEngine) : List TurnInput → Bool
  | [] => true
  | i :: rest =>
      let r := stepEngine e i
      (if e.state = TurnState.SilenceGap ∧ r.2.state = TurnState.Idle then
        decide (r.1 = TurnEvent.None ∧ r.2.speech_duration_ms = 0 ∧
          r.2.silence_duration_ms = 0)
      else true) && silenceReturnsClean r.2 rest

/-- `TurnDetectionConfig::default()`. -/
def default_config : TurnDetectionConfig :=
  { vad_threshold_enter := 3 / 5
    vad_threshold_exit := 3 / 10
    min_speech_duration_ms := 250
    max_silence_duration_ms := 400
    volume_threshold_db := -40 }

/-- A turn-detection engine currently in the `Speaking` state. -/
def engC4 : TurnDetectionEngine :=
  { TurnDetectionEngine.new default_config with state := TurnState.Speaking }

/-- Configuration exercising the short-speech suppression: enter/exit
threshold 1, 250 ms speech floor, 40 ms silence ceiling. -/
def cfgC3 : TurnDetectionConfig :=
  { vad_threshold_enter := 1
    vad_threshold_exit := 1
    min_speech_duration_ms := 250
    max_silence_duration_ms := 40
    volume_threshold_db := -40 }

/-- Silent features used in the concrete turn-detection traces. -/
def featC3 : AudioFeatures :=
  { volume_db := 0, pitch_hz := 0, spectral_centroid := 0, zero_crossing_rate := 0 }

/-- A trace with one 40 ms speech burst followed by 60 ms of silence: the
engine passes `Idle → Speaking → SilenceGap → Idle` with total speech
`40 < 250`. -/
def inputsC3 : List TurnInput :=
  [(2, featC3, 20), (0, featC3, 20), (0, featC3, 20), (0, featC3, 20)]

/-! ## Voice activity detector (src/audio/vad.rs)

The only non-algebraic step of `process` is the transcendental
`ln(energy / threshold)`; its (finite) `f32` value is taken as an explicit
parameter `logRatio`, and everything downstream of it — the `/ 5.0` scaling,
the `clamp(0.0, 1.0)`, and the exponential smoothing — mirrors the source.
`x.clamp(lo, hi)` is `max lo (min hi x)`.
-/

structure VoiceActivityDetector where
  sample_rate : Nat
  energy_threshold : ℚ
  smoothing_factor : ℚ
  previous_prob : ℚ
  frame_count : Nat
deriving DecidableEq, Repr

namespace VoiceActivityDetector

/-- `VoiceActivityDetector::new`. -/
def new (sample_rate : Nat) : VoiceActivityDetector :=
  { sample_rate := sample_rate
    energy_threshold := 1 / 1000
    smoothing_factor := 7 / 10
    previous_prob := 0
    frame_count := 0 }

/-- The frame energy `audio.iter().map(|x| x * x).sum::<f32>() / audio.len()`. -/
def frameEnergy (audio : List ℚ) : ℚ :=
  (audio.map fun x => x * x).sum / (audio.length : ℚ)

/-- `VoiceActivityDetector::process` (the returned `anyhow::Result` is always
`Ok` in the source, so the result is the bare probability). -/
def process (v : VoiceActivityDetector) (audio : List ℚ) (logRatio : ℚ) :
    ℚ × VoiceActivityDetector :=
  if audio = [] then (0, v)
  else
    let v := { v with frame_count := v.frame_count + 1 }
    let raw_prob :=
      if frameEnergy audio > v.energy_threshold then max 0 (min 1 (logRatio / 5))
      else 0
    let smoothed_prob :=
      v.smoothing_factor * raw_prob + (1 - v.smoothing_factor) * v.previous_prob
    (smoothed_prob, { v with previous_prob := smoothed_prob })

/-- `VoiceActivityDetector::reset`. -/
def reset (v : VoiceActivityDetector) : VoiceActivityDetector :=
  { v with previous_prob := 0, frame_count := 0 }

end VoiceActivityDetector

/-- Run the VAD over a sequence of frames (each with its `logRatio` value),
collecting the returned probabilities. -/
def runVad (v : VoiceActivityDetector) : List (List ℚ × ℚ) → List ℚ × VoiceActivityDetector
  | [] => ([], v)
  | i :: rest =>
      let r := v.process i.1 i.2
      let tailRun := runVad r.2 rest
      (r.1 :: tailRun.1, tailRun.2)

/-- `true` when every value of the list lies in `[0, 1]`. -/
def allInUnit (l : List ℚ) : Bool :=
  l.all fun q => decide (0 ≤ q ∧ q ≤ 1)

/-! ## Multi-signal fusion (src/detection/multi_signal.rs) -/

structure MultiSignalFusion where
  vad_weight : ℚ
  volume_weight : ℚ
  pitch_weight : ℚ
  context_weight : ℚ
deriving DecidableEq, Repr

namespace MultiSignalFusion

/-- `MultiSignalFusion::new` (default weights). -/
def new : MultiSignalFusion :=
  { vad_weight := 1 / 2
    volume_weight := 3 / 10
    pitch_weight := 1 / 10
    context_weight := 1 / 10 }

/-- `MultiSignalFusion::fuse_signals`. -/
def fuse_signals (f : MultiSignalFusion) (vad_prob : ℚ) (features : AudioFeatures)
    (context : Option String) : ℚ :=
  let volume_normalized := max 0 (min 1 ((features.volume_db + 50) / 50))
  let pitch_score : ℚ :=
    if features.pitch_hz > 50 ∧ features.pitch_hz < 400 then 1
    else if features.pitch_hz > 0 then 3 / 10
    else 0
  let context_boost : ℚ :=
    match context with
    | some s =>
        if s = "expecting_response" then 1 / 5
        else if s = "user_speaking" then 1 / 10
        else if s = "thinking" then -(1 / 10)
        else if s = "playing_audio" then -(1 / 5)
        else 0
    | none => 0
  let base_score := vad_prob * f.vad_weight + volume_normalized * f.volume_weight
      + pitch_score * f.pitch_weight
  let fused := base_score + context_boost * f.context_weight
  max 0 (min 1 fused)

end MultiSignalFusion

/-- The fixed feature vector of claim C6: volume −25 dB, pitch 150 Hz. -/
def featC6 : AudioFeatures :=
  { volume_db := -25
    pitch_hz := 150
    spectral_centroid := 0
    zero_crossing_rate := 0 }

/-! ## PCM conversions (src/audio/processor.rs)

Samples are exact: an `i16` divided by `32768` is exactly representable in
`f32`, so `pcm_to_float` is exact rational arithmetic.  In `float_to_pcm`
the `as i16` cast truncates toward zero, modelled by `ratTrunc`; the `f32`
product `x * 32767.0` rounds to nearest, which never moves the truncated
result outside the set `{s − 1, s, s + 1}` reached by the exact product, so
exact rational arithmetic is a faithful model for the ±1 bound.
-/

/-- Truncation toward zero (the semantics of Rust `as i16` on an in-range
float). -/
def ratTrunc (q : ℚ) : ℤ :=
  if 0 ≤ q then ⌊q⌋ else ⌈q⌉

/-- `pcm_to_float`: `x as f32 / 32768.0`. -/
def pcm_to_float (pcm : List ℤ) : List ℚ :=
  pcm.map fun x => (x : ℚ) / 32768

/-- `float_to_pcm`: `(x * 32767.0).clamp(-32768.0, 32767.0) as i16`. -/
def float_to_pcm (float_data : List ℚ) : List ℤ :=
  float_data.map fun x => ratTrunc (max (-32768) (min 32767 (x * 32767)))

/-! ## Distributed session registry (src/session/distributed_state.rs)

The `HashMap<String, SessionData>` is modelled as an association list with
pairwise-distinct keys; timestamps are integer seconds (the source compares
`signed_duration_since(..).num_seconds()` against the TTL).
-/

inductive SessionState where
  | Active
  | Paused
  | Terminating
  | Ended
deriving DecidableEq, Repr

structure SessionData where
  session_id : String
  user_id : Option String
  created_at : ℤ
  last_activity : ℤ
  state : SessionState
  metadata : List (String × String)
deriving DecidableEq, Repr

namespace SessionData

/-- `SessionData::new` at time `now`. -/
def mk0 (session_id : String) (now : ℤ) : SessionData :=
  { session_id := session_id
    user_id := none
    created_at := now
    last_activity := now
    state := SessionState.Active
    metadata := [] }

/-- `SessionData::touch` at time `now`. -/
def touch (s : SessionData) (now : ℤ) : SessionData :=
  { s with last_activity := now }

/-- `SessionData::is_expired`: `now − last_activity > ttl_seconds`. -/
def is_expired (s : SessionData) (now : ℤ) (ttl_seconds : Nat) : Bool :=
  decide ((ttl_seconds : ℤ) < now - s.last_activity)

/-- `SessionData::set_metadata`: `HashMap::insert` on the metadata map. -/
def set_metadata (s : SessionData) (key value : String) : SessionData :=
  { s with metadata :=
      if s.metadata.any fun kv => kv.1 = key then
        s.metadata.map fun kv => if kv.1 = key then (key, value) else kv
      else s.metadata ++ [(key, value)] }

end SessionData

structure SessionConfig where
  ttl_seconds : Nat
  max_sessions : Nat
deriving DecidableEq, Repr

/-- The session map: `HashMap<String, SessionData>` as an association list. -/
abbrev SessionMap : Type := List (String × SessionData)

/-- `HashMap::remove` on the association list. -/
def smRemove (k : String) (l : SessionMap) : SessionMap :=
  l.filter fun kv => kv.1 ≠ k

/-- `HashMap::insert` on the association list: replace the entry when the key
is present, append otherwise. -/
def smInsert (k : String) (v : SessionData) (l : SessionMap) : SessionMap :=
  if l.any fun kv => kv.1 = k then
    l.map fun kv => if kv.1 = k then (k, v) else kv
  else l ++ [(k, v)]

/-- `HashMap::get` on the association list. -/
def smGet (k : String) (l : SessionMap) : Option SessionData :=
  (l.find? fun kv => kv.1 = k).map Prod.snd

structure DistributedSessionManager where
  config : SessionConfig
  sessions : SessionMap
deriving DecidableEq, Repr

namespace DistributedSessionManager

/-- `cleanup_expired_internal`: collect the expired ids, then remove them one
by one. -/
def cleanup_expired_internal (now : ℤ) (ttl_seconds : Nat) (sessions : SessionMap) :
    SessionMap :=
  let expired := (sessions.filter fun kv => kv.2.is_expired now ttl_seconds).map Prod.fst
  expired.foldl (fun acc id => smRemove id acc) sessions

/-- `create_session` at time `now` with the freshly generated uuid
`session_id`; returns the `Result` together with the post-state (the lock
guard persists the cleanup mutations even on the error path). -/
def create_session (m : DistributedSessionManager) (now : ℤ) (session_id : String)
    (user_id : Option String) : Except String String × DistributedSessionManager :=
  let session := { SessionData.mk0 session_id now with user_id := user_id }
  if m.sessions.length ≥ m.config.max_sessions then
    let cleaned := cleanup_expired_internal now m.config.ttl_seconds m.sessions
    if cleaned.length ≥ m.config.max_sessions then
      (Except.error "Maximum session limit reached", { m with sessions := cleaned })
    else
      (Except.ok session_id,
        { m with sessions := smInsert session_id session cleaned })
  else
    (Except.ok session_id,
      { m with sessions := smInsert session_id session m.sessions })

/-- `touch_session` at time `now` (`get_mut` + `touch` on a hit, error on a
miss). -/
def touch_session (m : DistributedSessionManager) (now : ℤ) (session_id : String) :
    Except String Unit × DistributedSessionManager :=
  if m.sessions.any fun kv => kv.1 = session_id then
    (Except.ok (),
      { m with sessions := m.sessions.map fun kv =>
          if kv.1 = session_id then (kv.1, kv.2.touch now) else kv })
  else
    (Except.error "Session not found", m)

/-- `update_state` at time `now` (sets the state and touches on a hit). -/
def update_state (m : DistributedSessionManager) (now : ℤ) (session_id : String)
    (state : SessionState) : Except String Unit × DistributedSessionManager :=
  if m.sessions.any fun kv => kv.1 = session_id then
    (Except.ok (),
      { m with sessions := m.sessions.map fun kv =>
          if kv.1 = session_id then (kv.1, { kv.2.touch now with state := state }) else kv })
  else
    (Except.error "Session not found", m)

/-- `set_metadata` (inserts into the per-session metadata map on a hit). -/
def set_metadata (m : DistributedSessionManager) (session_id key value : String) :
    Except String Unit × DistributedSessionManager :=
  if m.sessions.any fun kv => kv.1 = session_id then
    (Except.ok (),
      { m with sessions := m.sessions.map fun kv =>
          if kv.1 = session_id then (kv.1, kv.2.set_metadata key value) else kv })
  else
    (Except.error "Session not found", m)

/-- `end_session`: mark the record `Ended` when present, then remove the key;
always returns `Ok`. -/
def end_session (m : DistributedSessionManager) (session_id : String) :
    Except String Unit × DistributedSessionManager :=
  let marked : SessionMap :=
    if m.sessions.any fun kv => kv.1 = session_id then
      m.sessions.map fun kv =>
        if kv.1 = session_id then (kv.1, { kv.2 with state := SessionState.Ended }) else kv
    else m.sessions
  (Except.ok (), { m with sessions := smRemove session_id marked })

end DistributedSessionManager

/-- A session record last touched at time `0`. -/
def sessA : SessionData :=
  { session_id := "a"
    user_id := none
    created_at := 0
    last_activity := 0
    state := SessionState.Active
    metadata := [] }

/-- A manager at capacity (`max_sessions = 1`) holding the single stale
session `"a"` under a 10-second TTL. -/
def mgrC9 : DistributedSessionManager :=
  { config := { ttl_seconds := 10, max_sessions := 1 }
    sessions := [("a", sessA)] }

/-! ## Helper lemmas: jitter buffer -/

theorem shrinkAux_of_le (fuel : Nat) (l : List (Nat × List Nat)) (m : Nat)
    (h : l.length ≤ m) : shrinkAux fuel l m = l := by
  cases fuel with
  | zero => rfl
  | succ f => simp [shrinkAux, Nat.not_lt.mpr h]

theorem shrinkAux_length_le (fuel : Nat) :
    ∀ (l : List (Nat × List Nat)) (m : Nat), l.length ≤ fuel →
      (shrinkAux fuel l m).length ≤ m := by
  induction fuel with
  | zero =>
      intro l m h
      simp only [shrinkAux]
      omega
  | succ f ih =>
      intro l m h
      by_cases hl : l.length > m
      · rw [shrinkAux]
        simp only [hl, if_true]
        exact ih l.tail m (by simp [List.length_tail]; omega)
      · rw [shrinkAux]
        simp only [hl, if_false]
        omega

theorem shrink_length_le (l : List (Nat × List Nat)) (m : Nat) :
    (shrink l m).length ≤ m :=
  shrinkAux_length_le l.length l m (Nat.le_refl _)

theorem shrink_tail_of_over (l : List (Nat × List Nat)) (m : Nat)
    (h : l.length = m + 1) : shrink l m = l.tail := by
  unfold shrink
  rw [h, shrinkAux]
  have : l.length > m := by omega
  simp only [this, if_true]
  exact shrinkAux_of_le m l.tail m (by simp [List.length_tail]; omega)

theorem btInsert_mem {k : Nat} {v : List Nat} :
    ∀ {l : List (Nat × List Nat)} {x}, x ∈ btInsert k v l → x = (k, v) ∨ x ∈ l := by
  intro l
  induction l with
  | nil => intro x hx; simp [btInsert] at hx; exact Or.inl hx
  | cons a t ih =>
      intro x hx
      by_cases h1 : k < a.1
      · simp [btInsert, h1] at hx
        rcases hx with h | h | h
        · exact Or.inl h
        · exact Or.inr (by simp [h])
        · exact Or.inr (by simp [h])
      · by_cases h2 : k = a.1
        · simp [btInsert, h1, h2] at hx
          rcases hx with h | h
          · exact Or.inl (by rw [h2]; exact h)
          · exact Or.inr (by simp [h])
        · simp [btInsert, h1, h2] at hx
          rcases hx with h | h
          · exact Or.inr (by simp [h])
          · rcases ih h with h3 | h3
            · exact Or.inl h3
            · exact Or.inr (by simp [h3])

theorem btInsert_key_mem (k : Nat) (v : List Nat) :
    ∀ l : List (Nat × List Nat), k ∈ (btInsert k v l).map Prod.fst := by
  intro l
  induction l with
  | nil => simp [btInsert]
  | cons a t ih =>
      by_cases h1 : k < a.1
      · simp [btInsert, h1]
      · by_cases h2 : k = a.1
        · simp [btInsert, h1, h2]
        · simp only [btInsert, if_neg h1, if_neg h2, List.map_cons, List.mem_cons]
          exact Or.inr ih

theorem btInsert_length (k : Nat) (v : List Nat) :
    ∀ l : List (Nat × List Nat),
      (btInsert k v l).length = l.length ∨ (btInsert k v l).length = l.length + 1 := by
  intro l
  induction l with
  | nil => simp [btInsert]
  | cons a t ih =>
      by_cases h1 : k < a.1
      · simp [btInsert, h1]
      · by_cases h2 : k = a.1
        · simp [btInsert, h1, h2]
        · simp only [btInsert, if_neg h1, if_neg h2, List.length_cons]
          omega

theorem btInsert_pairwise (k : Nat) (v : List Nat) :
    ∀ l : List (Nat × List Nat), l.Pairwise (fun a b => a.1 < b.1) →
      (btInsert k v l).Pairwise (fun a b => a.1 < b.1) := by
  intro l
  induction l with
  | nil => intro _; simp [btInsert]
  | cons a t ih =>
      intro hp
      rw [List.pairwise_cons] at hp
      obtain ⟨ha, ht⟩ := hp
      by_cases h1 : k < a.1
      · simp only [btInsert, if_pos h1]
        rw [List.pairwise_cons]
        refine ⟨?_, ?_⟩
        · intro x hx
          rcases List.mem_cons.mp hx with h | h
          · rw [h]; exact h1
          · exact lt_trans h1 (ha x h)
        · rw [List.pairwise_cons]
          exact ⟨ha, ht⟩
      · by_cases h2 : k = a.1
        · simp only [btInsert, if_neg h1, if_pos h2]
          rw [List.pairwise_cons]
          exact ⟨fun x hx => h2 ▸ ha x hx, ht⟩
        · simp only [btInsert, if_neg h1, if_neg h2]
          rw [List.pairwise_cons]
          refine ⟨?_, ih ht⟩
          intro x hx
          rcases btInsert_mem hx with h | h
          · rw [h]; omega
          · exact ha x h

theorem insert_buffer_eq (jb : JitterBuffer) (s : Nat) (d : List Nat) :
    (jb.insert s d).buffer = shrink (btInsert s d jb.buffer) jb.max_packets ∧
    (jb.insert s d).max_size_ms = jb.max_size_ms ∧
    (jb.insert s d).sample_rate = jb.sample_rate := by
  unfold JitterBuffer.insert
  cases h : jb.last_sequence with
  | none => simp [JitterBuffer.max_packets]
  | some last =>
      by_cases hc : s ≠ (last + 1) % 65536 ∧ s > (last + 1) % 65536
      · simp [hc, JitterBuffer.max_packets]
      · simp [hc, JitterBuffer.max_packets]

theorem insert_length_le (jb : JitterBuffer) (s : Nat) (d : List Nat) :
    (jb.insert s d).buffer.length ≤ jb.max_packets := by
  rw [(insert_buffer_eq jb s d).1]
  exact shrink_length_le _ _

theorem insert_max_packets (jb : JitterBuffer) (s : Nat) (d : List Nat) :
    (jb.insert s d).max_packets = jb.max_packets := by
  unfold JitterBuffer.max_packets
  rw [(insert_buffer_eq jb s d).2.1, (insert_buffer_eq jb s d).2.2]

theorem applyInserts_length_le (l : List (Nat × List Nat)) :
    ∀ jb : JitterBuffer, jb.buffer.length ≤ jb.max_packets →
      (applyInserts jb l).buffer.length ≤ jb.max_packets := by
  induction l with
  | nil => intro jb h; exact h
  | cons p t ih =>
      intro jb h
      have h1 := ih (jb.insert p.1 p.2) (by
        rw [insert_max_packets]
        exact insert_length_le jb p.1 p.2)
      rw [insert_max_packets] at h1
      exact h1

/-! ## Claim C1 -/

/-- C1 (counterexample): with `last_sequence = some 5`, inserting sequence `2`
has forward distance `(2 − 6) mod 2^16 = 65532 > 2^15`, so the claim says the
packet is dropped silently; the code inserts it into the buffer (and, as the
claim agrees for this input, does not count loss). -/
theorem jitter_c1_late_packet_inserted :
    ((2 + 65536 - 6) % 65536 : Nat) > 2 ^ 15 ∧
    jbC1.last_sequence = some 5 ∧
    (jbC1.insert 2 [7]).buffer = [(2, [7])] ∧
    (jbC1.insert 2 [7]).packets_lost = jbC1.packets_lost := by
  decide

/-- C1 (amended): with a last-delivered sequence present and
`expected = last + 1 (mod 2^16)`, the lost counter is incremented by
`(seq − expected) mod 2^16` exactly when `expected < seq` in the plain `u16`
numeric order (no modular half-range guard), and the packet is always
inserted into the ordered map — late packets are neither dropped nor counted
as loss; the map then only shrinks through the capacity loop. -/
theorem jitter_c1_insert_plain_order (jb : JitterBuffer) (last seq : Nat) (d : List Nat)
    (hlast : jb.last_sequence = some last) :
    (jb.insert seq d).packets_lost =
      jb.packets_lost +
        (if (last + 1) % 65536 < seq then (seq + 65536 - (last + 1) % 65536) % 65536
         else 0) ∧
    seq ∈ (btInsert seq d jb.buffer).map Prod.fst ∧
    (jb.insert seq d).buffer = shrink (btInsert seq d jb.buffer) jb.max_packets := by
  refine ⟨?_, btInsert_key_mem seq d jb.buffer, (insert_buffer_eq jb seq d).1⟩
  unfold JitterBuffer.insert
  simp only [hlast]
  split_ifs with hc hd hd2
  · simp
  · exact absurd hc.2 hd
  · exact absurd ⟨by omega, hd2⟩ hc
  · simp

/-- Witness for `jitter_c1_insert_plain_order` at `jbC1`, `last = 5`,
`seq = 2`. -/
theorem jitter_c1_insert_plain_order_witness :
    (jbC1.insert 2 [7]).packets_lost =
      jbC1.packets_lost +
        (if (5 + 1) % 65536 < 2 then (2 + 65536 - (5 + 1) % 65536) % 65536 else 0) ∧
    2 ∈ (btInsert 2 [7] jbC1.buffer).map Prod.fst ∧
    (jbC1.insert 2 [7]).buffer = shrink (btInsert 2 [7] jbC1.buffer) jbC1.max_packets :=
  jitter_c1_insert_plain_order jbC1 5 2 [7] rfl

/-! ## Claim C8 -/

/-- C8: after any sequence of inserts from a fresh buffer the number of
buffered packets never exceeds `max(10, max_size_ms * (sample_rate / 320) /
1000)`, and an insert that would exceed the capacity evicts the entry with
the lowest sequence number of the current ordered view. -/
theorem jitter_c8_capacity (ms sr : Nat) (inserts : List (Nat × List Nat))
    (jb : JitterBuffer) (seq : Nat) (d : List Nat)
    (hsorted : jb.buffer.Pairwise (fun a b => a.1 < b.1))
    (hlen : jb.buffer.length ≤ jb.max_packets)
    (hover : jb.max_packets < (btInsert seq d jb.buffer).length) :
    (applyInserts (JitterBuffer.new ms sr) inserts).buffer.length
        ≤ Nat.max 10 ((ms * (sr / 320)) / 1000) ∧
    (jb.insert seq d).buffer = (btInsert seq d jb.buffer).tail ∧
    ∀ x ∈ (btInsert seq d jb.buffer).tail,
      ((btInsert seq d jb.buffer).headI).1 < x.1 := by
  refine ⟨?_, ?_, ?_⟩
  · have h := applyInserts_length_le inserts (JitterBuffer.new ms sr)
      (by simp [JitterBuffer.new, JitterBuffer.max_packets])
    have hmp : (JitterBuffer.new ms sr).max_packets
        = Nat.max ((ms * (sr / 320)) / 1000) 10 := rfl
    rw [hmp] at h
    exact h.trans (Nat.max_le.mpr ⟨Nat.le_max_right _ _, Nat.le_max_left _ _⟩)
  · have hl : (btInsert seq d jb.buffer).length = jb.max_packets + 1 := by
      rcases btInsert_length seq d jb.buffer with h | h <;> omega
    rw [(insert_buffer_eq jb seq d).1]
    exact shrink_tail_of_over _ _ hl
  · have hp := btInsert_pairwise seq d jb.buffer hsorted
    cases hbt : btInsert seq d jb.buffer with
    | nil => rw [hbt] at hover; simp at hover
    | cons a t =>
        rw [hbt] at hp
        rw [List.pairwise_cons] at hp
        intro x hx
        simp only [List.tail_cons] at hx
        simp only [List.headI]
        exact hp.1 x hx

/-! ## Claim C2 -/

theorem and127 : ∀ x < 128, x &&& 127 = x := by decide

theorem lor128_and127 : ∀ x < 128, (128 ||| x) &&& 127 = x := by decide

theorem lor128_and128 : ∀ x < 128, (128 ||| x) &&& 128 = 128 := by decide

theorem and128 : ∀ x < 128, x &&& 128 = 0 := by decide

/-- C2 (counterexample): for the packet `pC2` with `version = 2` and
`csrc_count = 1 ∈ [0, 15]`, the round trip does not return the original
packet — `serialize` emits no CSRC words, so `parse` consumes the first four
payload bytes as the CSRC identifier and returns `pC2parsed ≠ pC2`. -/
theorem rtp_c2_roundtrip_fails_with_csrc :
    RtpPacket.parse pC2.serialize = Except.ok pC2parsed ∧ pC2parsed ≠ pC2 := by
  constructor
  · rfl
  · decide

/-- C2 (amended): for every packet with `version = 2`, `csrc_count = 0` and
`payload_type ≤ 127` (with the `u16`/`u32` fields in range),
`parse (serialize p)` succeeds and returns exactly `p`. -/
theorem rtp_c2_roundtrip (p : RtpPacket) (hv : p.version = 2) (hcc : p.csrc_count = 0)
    (hpt : p.payload_type < 128) (hseq : p.sequence_number < 65536)
    (hts : p.timestamp < 4294967296) (hssrc : p.ssrc < 4294967296) :
    RtpPacket.parse p.serialize = Except.ok p := by
  obtain ⟨v, pad, ext, cc, mk, pt, seq, ts, ssrc, pl⟩ := p
  simp only at hv hcc hpt hseq hts hssrc
  subst hv hcc
  cases pad <;> cases ext <;> cases mk <;>
    simp only [RtpPacket.serialize, RtpPacket.parse] <;>
    norm_num <;>
    simp only [show ((2:Nat) <<< 6 % 256) = 128 from by decide,
      show ((128:Nat) ||| 32) = 160 from by decide,
      show ((128:Nat) ||| 16) = 144 from by decide,
      show ((160:Nat) ||| 16) = 176 from by decide,
      show ((128:Nat) >>> 6 &&& 3) = 2 from by decide,
      show ((144:Nat) >>> 6 &&& 3) = 2 from by decide,
      show ((160:Nat) >>> 6 &&& 3) = 2 from by decide,
      show ((176:Nat) >>> 6 &&& 3) = 2 from by decide,
      show ((128:Nat) &&& 32) = 0 from by decide,
      show ((144:Nat) &&& 32) = 0 from by decide,
      show ((160:Nat) &&& 32) = 32 from by decide,
      show ((176:Nat) &&& 32) = 32 from by decide,
      show ((128:Nat) &&& 16) = 0 from by decide,
      show ((144:Nat) &&& 16) = 16 from by decide,
      show ((160:Nat) &&& 16) = 0 from by decide,
      show ((176:Nat) &&& 16) = 16 from by decide,
      show ((128:Nat) &&& 15) = 0 from by decide,
      show ((144:Nat) &&& 15) = 0 from by decide,
      show ((160:Nat) &&& 15) = 0 from by decide,
      show ((176:Nat) &&& 15) = 0 from by decide,
      and127 pt hpt, lor128_and127 pt hpt, lor128_and128 pt hpt, and128 pt hpt,
      Nat.zero_mul, List.drop_zero, Except.ok.injEq, RtpPacket.mk.injEq] <;>
    norm_num <;>
    omega

/-- Witness for `rtp_c2_roundtrip` at a concrete packet with all header bits
set and nontrivial field values. -/
theorem rtp_c2_roundtrip_witness :
    RtpPacket.parse
        (RtpPacket.serialize
          { version := 2, padding := true, extension := true, csrc_count := 0,
            marker := true, payload_type := 111, sequence_number := 1234,
            timestamp := 567890, ssrc := 9012, payload := [1, 2, 3, 4] })
      = Except.ok
          { version := 2, padding := true, extension := true, csrc_count := 0,
            marker := true, payload_type := 111, sequence_number := 1234,
            timestamp := 567890, ssrc := 9012, payload := [1, 2, 3, 4] } :=
  rtp_c2_roundtrip _ rfl rfl (by decide) (by decide) (by decide) (by decide)

/-! ## Claim C3 -/

/-- Per-step characterization of `process`: a `TurnEnded d` event arises only
on a `SilenceGap → Idle` return with `d` the accumulated speech and `d` at
least the configured minimum; every `SilenceGap → Idle` return zeroes both
duration counters and, when the accumulated speech is below the minimum,
emits `None`. -/
theorem step_turnEnded_char (e : TurnDetectionEngine) (i : TurnInput) :
    (∀ d, (stepEngine e i).1 = TurnEvent.TurnEnded d →
      e.state = TurnState.SilenceGap ∧ (stepEngine e i).2.state = TurnState.Idle ∧
      d = e.speech_duration_ms ∧ e.config.min_speech_duration_ms ≤ d) ∧
    (e.state = TurnState.SilenceGap → (stepEngine e i).2.state = TurnState.Idle →
      (stepEngine e i).2.speech_duration_ms = 0 ∧
      (stepEngine e i).2.silence_duration_ms = 0 ∧
      (e.speech_duration_ms < e.config.min_speech_duration_ms →
        (stepEngine e i).1 = TurnEvent.None)) := by
  cases hs : e.state <;>
    simp only [stepEngine, TurnDetectionEngine.process,
      TurnDetectionEngine.handle_idle, TurnDetectionEngine.handle_speaking,
      TurnDetectionEngine.handle_silence_gap, hs] <;>
    split_ifs <;>
    simp_all

theorem trace_short_speech : ∀ (l : List TurnInput) (e : TurnDetectionEngine),
    shortSpeechTrace e l = true →
    noTurnEnded (runEvents e l) = true ∧ silenceReturnsClean e l = true := by
  intro l
  induction l with
  | nil => intro e _; exact ⟨rfl, rfl⟩
  | cons i t ih =>
      intro e h
      rw [shortSpeechTrace, Bool.and_eq_true] at h
      obtain ⟨h1, h2⟩ := h
      obtain ⟨ih1, ih2⟩ := ih (stepEngine e i).2 h2
      have hchar := step_turnEnded_char e i
      constructor
      · rw [runEvents, noTurnEnded, List.all_cons, Bool.and_eq_true]
        refine ⟨?_, ih1⟩
        cases hev : (stepEngine e i).1 with
        | TurnEnded d =>
            exfalso
            obtain ⟨hsg, hidle, hd, hmin⟩ := hchar.1 d hev
            rw [if_pos ⟨hsg, hidle⟩, decide_eq_true_eq] at h1
            omega
        | None => rfl
        | TurnStarted => rfl
        | BargeIn => rfl
      · rw [silenceReturnsClean, Bool.and_eq_true]
        refine ⟨?_, ih2⟩
        by_cases hcond : e.state = TurnState.SilenceGap ∧
            (stepEngine e i).2.state = TurnState.Idle
        · rw [if_pos hcond] at h1 ⊢
          rw [decide_eq_true_eq] at h1
          obtain ⟨hz1, hz2, hnone⟩ := hchar.2 hcond.1 hcond.2
          rw [decide_eq_true_eq]
          exact ⟨hnone h1, hz1, hz2⟩
        · rw [if_neg hcond]

/-- C3: from a fresh engine, on every frame sequence whose `SilenceGap → Idle`
returns all happen with accumulated speech strictly below
`min_speech_duration_ms`, no emitted event is a `TurnEnded`, and each such
return emits `None` with both duration counters zeroed. -/
theorem turn_c3_short_speech_suppressed (cfg : TurnDetectionConfig)
    (inputs : List TurnInput)
    (h : shortSpeechTrace (TurnDetectionEngine.new cfg) inputs = true) :
    noTurnEnded (runEvents (TurnDetectionEngine.new cfg) inputs) = true ∧
    silenceReturnsClean (TurnDetectionEngine.new cfg) inputs = true :=
  trace_short_speech inputs (TurnDetectionEngine.new cfg) h

/-- Witness for `turn_c3_short_speech_suppressed` on the concrete trace
`inputsC3` (a 40 ms burst under the 250 ms floor, then silence past the
ceiling). -/
theorem turn_c3_short_speech_suppressed_witness :
    noTurnEnded (runEvents (TurnDetectionEngine.new cfgC3) inputsC3) = true ∧
    silenceReturnsClean (TurnDetectionEngine.new cfgC3) inputsC3 = true :=
  turn_c3_short_speech_suppressed cfgC3 inputsC3 (by decide)

/-! ## Claim C4 -/

/-- C4: `signal_potential_barge_in` sets the pending flag exactly when the
state is not `Idle` (leaving it untouched otherwise) and never changes the
state; `check_barge_in` returns `true` iff the state is `Speaking` and the
flag is set, clearing the flag exactly in that case; and during `Speaking`
one signal followed by one check yields `true` with the state still
`Speaking`, while an immediately following check yields `false`. -/
theorem barge_c4 (e0 : TurnDetectionEngine) (h0 : e0.state = TurnState.Speaking) :
    (∀ e : TurnDetectionEngine,
      (e.signal_potential_barge_in).barge_in_pending
          = (decide (e.state ≠ TurnState.Idle) || e.barge_in_pending) ∧
      (e.signal_potential_barge_in).state = e.state) ∧
    (∀ e : TurnDetectionEngine,
      ((e.check_barge_in).1 = true ↔
        e.state = TurnState.Speaking ∧ e.barge_in_pending = true) ∧
      (e.check_barge_in).2.state = e.state ∧
      (e.check_barge_in).2.barge_in_pending
          = (if (e.check_barge_in).1 = true then false else e.barge_in_pending)) ∧
    ((e0.signal_potential_barge_in.check_barge_in).1 = true ∧
     (e0.signal_potential_barge_in.check_barge_in).2.state = TurnState.Speaking ∧
     ((e0.signal_potential_barge_in.check_barge_in).2.check_barge_in).1 = false) := by
  refine ⟨?_, ?_, ?_⟩
  · intro e
    unfold TurnDetectionEngine.signal_potential_barge_in
    split_ifs with h <;> simp_all
  · intro e
    by_cases h : e.barge_in_pending = true ∧ e.state = TurnState.Speaking
    · have hc : e.check_barge_in = (true, { e with barge_in_pending := false }) := by
        unfold TurnDetectionEngine.check_barge_in
        rw [if_pos h]
      rw [hc]
      simp [h.1, h.2]
    · have hc : e.check_barge_in = (false, e) := by
        unfold TurnDetectionEngine.check_barge_in
        rw [if_neg h]
      rw [hc]
      refine ⟨?_, rfl, ?_⟩
      · simp only [Bool.false_eq_true, false_iff]
        intro hab
        exact h ⟨hab.2, hab.1⟩
      · simp
  · have hsig : e0.signal_potential_barge_in =
        { e0 with barge_in_pending := true } := by
      unfold TurnDetectionEngine.signal_potential_barge_in
      rw [if_pos (by rw [h0]; intro hc; exact TurnState.noConfusion hc)]
    rw [hsig]
    unfold TurnDetectionEngine.check_barge_in
    simp [h0]

/-- Witness for `barge_c4` at the concrete `Speaking` engine `engC4`. -/
theorem barge_c4_witness :
    (∀ e : TurnDetectionEngine,
      (e.signal_potential_barge_in).barge_in_pending
          = (decide (e.state ≠ TurnState.Idle) || e.barge_in_pending) ∧
      (e.signal_potential_barge_in).state = e.state) ∧
    (∀ e : TurnDetectionEngine,
      ((e.check_barge_in).1 = true ↔
        e.state = TurnState.Speaking ∧ e.barge_in_pending = true) ∧
      (e.check_barge_in).2.state = e.state ∧
      (e.check_barge_in).2.barge_in_pending
          = (if (e.check_barge_in).1 = true then false else e.barge_in_pending)) ∧
    ((engC4.signal_potential_barge_in.check_barge_in).1 = true ∧
     (engC4.signal_potential_barge_in.check_barge_in).2.state = TurnState.Speaking ∧
     ((engC4.signal_potential_barge_in.check_barge_in).2.check_barge_in).1 = false) :=
  barge_c4 engC4 rfl

/-! ## Claim C5 -/

theorem clamp01_ite_bounds (c : Prop) [Decidable c] (x : ℚ) :
    0 ≤ (if c then max 0 (min 1 x) else 0) ∧
    (if c then max 0 (min 1 x) else 0) ≤ 1 := by
  split_ifs
  · exact ⟨le_max_left 0 _, max_le (by norm_num) (min_le_left 1 _)⟩
  · norm_num

theorem process_bounds (v : VoiceActivityDetector)
    (h0 : 0 ≤ v.previous_prob) (h1 : v.previous_prob ≤ 1)
    (ha : v.smoothing_factor = 7 / 10) (audio : List ℚ) (lr : ℚ) :
    0 ≤ (v.process audio lr).1 ∧ (v.process audio lr).1 ≤ 1 ∧
    0 ≤ (v.process audio lr).2.previous_prob ∧
    (v.process audio lr).2.previous_prob ≤ 1 := by
  by_cases he : audio = []
  · simp only [VoiceActivityDetector.process, if_pos he]
    exact ⟨le_refl 0, by norm_num, h0, h1⟩
  · simp only [VoiceActivityDetector.process, if_neg he]
    obtain ⟨hr0, hr1⟩ :=
      clamp01_ite_bounds (VoiceActivityDetector.frameEnergy audio > v.energy_threshold)
        (lr / 5)
    rw [ha]
    refine ⟨by nlinarith, by nlinarith, by nlinarith, by nlinarith⟩

theorem process_keeps_alpha (v : VoiceActivityDetector) (audio : List ℚ) (lr : ℚ) :
    (v.process audio lr).2.smoothing_factor = v.smoothing_factor := by
  unfold VoiceActivityDetector.process
  split_ifs <;> simp

theorem runVad_bounds : ∀ (inputs : List (List ℚ × ℚ)) (v : VoiceActivityDetector),
    0 ≤ v.previous_prob → v.previous_prob ≤ 1 → v.smoothing_factor = 7 / 10 →
    allInUnit (runVad v inputs).1 = true ∧
    0 ≤ (runVad v inputs).2.previous_prob ∧
    (runVad v inputs).2.previous_prob ≤ 1 := by
  intro inputs
  induction inputs with
  | nil => intro v h0 h1 _; exact ⟨rfl, h0, h1⟩
  | cons i t ih =>
      intro v h0 h1 ha
      have hb := process_bounds v h0 h1 ha i.1 i.2
      have hα := process_keeps_alpha v i.1 i.2
      obtain ⟨ih1, ih2, ih3⟩ :=
        ih (v.process i.1 i.2).2 hb.2.2.1 hb.2.2.2 (by rw [hα, ha])
      refine ⟨?_, ih2, ih3⟩
      rw [runVad]
      simp only [allInUnit, List.all_cons, Bool.and_eq_true]
      exact ⟨by rw [decide_eq_true_eq]; exact ⟨hb.1, hb.2.1⟩, ih1⟩

/-- C5: with `α = 0.7` and the raw probability clamped to `[0, 1]`, the
returned and stored smoothed probability stay in `[0, 1]` across every
`process` call (the interval is an invariant of the stored state), `reset`
re-establishes it, and from a fresh detector every returned value of any
call sequence lies in `[0, 1]`. -/
theorem vad_c5_prob_in_unit (v : VoiceActivityDetector)
    (h0 : 0 ≤ v.previous_prob) (h1 : v.previous_prob ≤ 1)
    (ha : v.smoothing_factor = 7 / 10)
    (audio : List ℚ) (lr : ℚ) (sr : Nat) (inputs : List (List ℚ × ℚ)) :
    (0 ≤ (v.process audio lr).1 ∧ (v.process audio lr).1 ≤ 1 ∧
     0 ≤ (v.process audio lr).2.previous_prob ∧
     (v.process audio lr).2.previous_prob ≤ 1) ∧
    v.reset.previous_prob = 0 ∧
    (allInUnit (runVad (VoiceActivityDetector.new sr) inputs).1 = true ∧
     0 ≤ (runVad (VoiceActivityDetector.new sr) inputs).2.previous_prob ∧
     (runVad (VoiceActivityDetector.new sr) inputs).2.previous_prob ≤ 1) :=
  ⟨process_bounds v h0 h1 ha audio lr, rfl,
   runVad_bounds inputs (VoiceActivityDetector.new sr)
     (le_refl 0) (by norm_num [VoiceActivityDetector.new]) rfl⟩

/-- Witness for `vad_c5_prob_in_unit` at a fresh 16 kHz detector, one loud
frame, and a two-frame run. -/
theorem vad_c5_prob_in_unit_witness :
    (0 ≤ ((VoiceActivityDetector.new 16000).process [1/2] 10).1 ∧
     ((VoiceActivityDetector.new 16000).process [1/2] 10).1 ≤ 1 ∧
     0 ≤ ((VoiceActivityDetector.new 16000).process [1/2] 10).2.previous_prob ∧
     ((VoiceActivityDetector.new 16000).process [1/2] 10).2.previous_prob ≤ 1) ∧
    (VoiceActivityDetector.new 16000).reset.previous_prob = 0 ∧
    (allInUnit (runVad (VoiceActivityDetector.new 16000) [([1/2], 10), ([], 0)]).1
        = true ∧
     0 ≤ (runVad (VoiceActivityDetector.new 16000)
        [([1/2], 10), ([], 0)]).2.previous_prob ∧
     (runVad (VoiceActivityDetector.new 16000)
        [([1/2], 10), ([], 0)]).2.previous_prob ≤ 1) :=
  vad_c5_prob_in_unit (VoiceActivityDetector.new 16000)
    (le_refl 0) (by norm_num [VoiceActivityDetector.new]) rfl
    [1/2] 10 16000 [([1/2], 10), ([], 0)]

/-! ## Claim C6 -/

/-- C6: with the default weights and the fixed inputs `vad = 0.5`,
`volume = −25 dB`, `pitch = 150 Hz`, the fused confidence under
`expecting_response` (= 0.52) strictly exceeds the one without context
(= 0.5), which strictly exceeds the one under `playing_audio` (= 0.48); the
exact values show that no clamp saturation occurs. -/
theorem fusion_c6_context_bias :
    MultiSignalFusion.new.fuse_signals (1/2) featC6 (some "expecting_response")
      > MultiSignalFusion.new.fuse_signals (1/2) featC6 none ∧
    MultiSignalFusion.new.fuse_signals (1/2) featC6 none
      > MultiSignalFusion.new.fuse_signals (1/2) featC6 (some "playing_audio") ∧
    MultiSignalFusion.new.fuse_signals (1/2) featC6 (some "expecting_response")
      = 13/25 ∧
    MultiSignalFusion.new.fuse_signals (1/2) featC6 none = 1/2 ∧
    MultiSignalFusion.new.fuse_signals (1/2) featC6 (some "playing_audio")
      = 12/25 := by
  norm_num [MultiSignalFusion.fuse_signals, MultiSignalFusion.new, featC6,
    show ("playing_audio" = "expecting_response") = False from by decide,
    show ("playing_audio" = "user_speaking") = False from by decide,
    show ("playing_audio" = "thinking") = False from by decide]

/-! ## Claim C7 -/

/-- C7: for every in-range `i16` sample `s`, converting to float by
`s / 32768` and back through `float_to_pcm` (clamp of `x * 32767`, then the
truncating `as i16` cast) lands within one least-significant bit of `s`. -/
theorem pcm_c7_roundtrip_error_le_one (s : ℤ) (hlo : -32768 ≤ s) (hhi : s ≤ 32767) :
    |(float_to_pcm (pcm_to_float [s])).headI - s| ≤ 1 := by
  have hrw : float_to_pcm (pcm_to_float [s])
      = [ratTrunc (max (-32768) (min 32767 ((s : ℚ) / 32768 * 32767)))] := rfl
  rw [hrw]
  simp only [List.headI]
  set q : ℚ := (s : ℚ) / 32768 * 32767 with hq
  have hqs : q * 32768 = (s : ℚ) * 32767 := by
    rw [hq]
    field_simp
  have hloQ : (-32768 : ℚ) ≤ (s : ℚ) := by exact_mod_cast hlo
  have hhiQ : (s : ℚ) ≤ 32767 := by exact_mod_cast hhi
  have hq_hi : q ≤ 32767 := by linarith
  rw [max_eq_right (by rw [min_eq_right hq_hi]; linarith), min_eq_right hq_hi]
  by_cases hs : 0 ≤ s
  · have hsQ : (0 : ℚ) ≤ (s : ℚ) := by exact_mod_cast hs
    have hq0 : (0 : ℚ) ≤ q := by linarith
    rw [ratTrunc, if_pos hq0]
    have h1 : ⌊q⌋ ≤ s := by
      calc ⌊q⌋ ≤ ⌊(s : ℚ)⌋ := Int.floor_mono (by linarith)
        _ = s := Int.floor_intCast s
    have h2 : s - 1 ≤ ⌊q⌋ := by
      rw [Int.le_floor]
      push_cast
      linarith
    rw [abs_le]
    omega
  · have hsQ : (s : ℚ) ≤ -1 := by
      have hs1 : s ≤ -1 := by omega
      exact_mod_cast hs1
    have hq0 : ¬ (0 : ℚ) ≤ q := by
      intro hcon
      linarith
    rw [ratTrunc, if_neg hq0]
    have h1 : s ≤ ⌈q⌉ := by
      calc s = ⌈(s : ℚ)⌉ := (Int.ceil_intCast s).symm
        _ ≤ ⌈q⌉ := Int.ceil_mono (by linarith)
    have h2 : ⌈q⌉ ≤ s + 1 := by
      rw [Int.ceil_le]
      push_cast
      linarith
    rw [abs_le]
    omega

/-- Witness for `pcm_c7_roundtrip_error_le_one` at the extreme sample
`s = 32767`. -/
theorem pcm_c7_roundtrip_error_le_one_witness :
    |(float_to_pcm (pcm_to_float [32767])).headI - 32767| ≤ 1 :=
  pcm_c7_roundtrip_error_le_one 32767 (by decide) (by decide)

/-- Witness for `jitter_c8_capacity` at the full buffer `jbC8` (capacity 10,
ten resident packets) with a fresh insert of sequence `10`. -/
theorem jitter_c8_capacity_witness :
    (applyInserts (JitterBuffer.new 100 16000) []).buffer.length
        ≤ Nat.max 10 ((100 * (16000 / 320)) / 1000) ∧
    (jbC8.insert 10 []).buffer = (btInsert 10 [] jbC8.buffer).tail ∧
    ∀ x ∈ (btInsert 10 [] jbC8.buffer).tail,
      ((btInsert 10 [] jbC8.buffer).headI).1 < x.1 :=
  jitter_c8_capacity 100 16000 [] jbC8 10 [] (by decide) (by decide) (by decide)

/-! ## Claims C9 and C10: session registry helper lemmas -/

theorem foldl_smRemove (ids : List String) : ∀ l : SessionMap,
    ids.foldl (fun acc id => smRemove id acc) l
      = l.filter fun kv => decide (kv.1 ∉ ids) := by
  induction ids with
  | nil =>
      intro l
      simp [List.filter_eq_self]
  | cons a t ih =>
      intro l
      rw [List.foldl_cons]
      rw [ih (smRemove a l)]
      unfold smRemove
      rw [List.filter_filter]
      apply List.filter_congr
      intro x _
      simp [List.mem_cons, not_or, Bool.and_comm]

theorem nodup_key_inj (l : SessionMap) (hnodup : (l.map Prod.fst).Nodup)
    {x y : String × SessionData} (hx : x ∈ l) (hy : y ∈ l) (hk : x.1 = y.1) :
    x = y :=
  List.inj_on_of_nodup_map hnodup hx hy hk

theorem cleanup_eq_filter (now : ℤ) (ttl : Nat) (l : SessionMap)
    (hnodup : (l.map Prod.fst).Nodup) :
    DistributedSessionManager.cleanup_expired_internal now ttl l
      = l.filter fun kv => ! kv.2.is_expired now ttl := by
  unfold DistributedSessionManager.cleanup_expired_internal
  rw [foldl_smRemove]
  apply List.filter_congr
  intro x hx
  by_cases hex : x.2.is_expired now ttl = true
  · have hmem : x.1 ∈ (l.filter fun kv => kv.2.is_expired now ttl).map Prod.fst := by
      apply List.mem_map_of_mem
      exact List.mem_filter.mpr ⟨hx, hex⟩
    simp [hmem, hex]
  · have hnm : x.1 ∉ (l.filter fun kv => kv.2.is_expired now ttl).map Prod.fst := by
      intro hcon
      obtain ⟨y, hy, hyk⟩ := List.mem_map.mp hcon
      obtain ⟨hyl, hyex⟩ := List.mem_filter.mp hy
      have := nodup_key_inj l hnodup hyl hx hyk
      rw [this] at hyex
      exact hex hyex
    simp [hnm, hex]

theorem any_key_eq_false {k : String} {l : SessionMap} (h : k ∉ l.map Prod.fst) :
    (l.any fun kv => kv.1 = k) = false := by
  rw [List.any_eq_false]
  intro x hx
  simp only [decide_eq_true_eq]
  intro hk
  exact h (hk ▸ List.mem_map_of_mem Prod.fst hx)

theorem smInsert_fresh {k : String} (v : SessionData) {l : SessionMap}
    (h : k ∉ l.map Prod.fst) : smInsert k v l = l ++ [(k, v)] := by
  unfold smInsert
  rw [any_key_eq_false h]
  simp

theorem smGet_append_self (k : String) (v : SessionData) :
    ∀ l : SessionMap, k ∉ l.map Prod.fst → smGet k (l ++ [(k, v)]) = some v := by
  intro l
  induction l with
  | nil =>
      intro _
      simp [smGet, List.find?]
  | cons a t ih =>
      intro h
      have h2 : k ∉ t.map Prod.fst := fun hc => h (by simp [hc])
      have hpa : ¬ ((fun kv : String × SessionData => decide (kv.1 = k)) a = true) := by
        simp only [decide_eq_true_eq]
        intro hc
        exact h (by simp [← hc])
      have hpa2 : (fun kv : String × SessionData => decide (kv.1 = k)) a = false := by
        simp only [decide_eq_true_eq] at hpa
        simp [hpa]
      calc smGet k ((a :: t) ++ [(k, v)]) = smGet k (t ++ [(k, v)]) := by
            simp only [smGet, List.cons_append, List.find?, hpa2, List.append_eq]
        _ = some v := ih h2

theorem key_not_mem_filter {k : String} {l : SessionMap}
    (p : String × SessionData → Bool) (h : k ∉ l.map Prod.fst) :
    k ∉ (l.filter p).map Prod.fst := by
  intro hc
  obtain ⟨y, hy, hyk⟩ := List.mem_map.mp hc
  exact h (List.mem_map.mpr ⟨y, (List.mem_filter.mp hy).1, hyk⟩)

/-- C9: `create_session` on a map with distinct keys, a fresh uuid and the
capacity invariant in force: the cleanup pass removes exactly the entries
with `now − last_activity > ttl_seconds`; the call fails (with the capacity
error, leaving the map exactly the cleaned one, no record inserted) if and
only if the count was at capacity and is still at capacity after cleanup;
on success a fresh `Active` record is present under the new id; and the
session count never exceeds `max_sessions`. -/
theorem session_c9_create (m : DistributedSessionManager) (now : ℤ) (sid : String)
    (uid : Option String)
    (hnodup : (m.sessions.map Prod.fst).Nodup)
    (hfresh : sid ∉ m.sessions.map Prod.fst)
    (hcap : m.sessions.length ≤ m.config.max_sessions) :
    (∀ kv, kv ∈ DistributedSessionManager.cleanup_expired_internal now
          m.config.ttl_seconds m.sessions ↔
        kv ∈ m.sessions ∧
          ¬ ((m.config.ttl_seconds : ℤ) < now - kv.2.last_activity)) ∧
    ((m.create_session now sid uid).1 = Except.error "Maximum session limit reached" ↔
      (m.config.max_sessions ≤ m.sessions.length ∧
       m.config.max_sessions ≤
         (DistributedSessionManager.cleanup_expired_internal now
           m.config.ttl_seconds m.sessions).length)) ∧
    ((m.create_session now sid uid).1 = Except.error "Maximum session limit reached" →
      (m.create_session now sid uid).2.sessions
        = DistributedSessionManager.cleanup_expired_internal now
            m.config.ttl_seconds m.sessions) ∧
    ((m.create_session now sid uid).1 = Except.ok sid →
      smGet sid (m.create_session now sid uid).2.sessions
        = some { session_id := sid, user_id := uid, created_at := now,
                 last_activity := now, state := SessionState.Active,
                 metadata := [] }) ∧
    (m.create_session now sid uid).2.sessions.length ≤ m.config.max_sessions := by
  have hclean := cleanup_eq_filter now m.config.ttl_seconds m.sessions hnodup
  have hcleanlen : (DistributedSessionManager.cleanup_expired_internal now
      m.config.ttl_seconds m.sessions).length ≤ m.sessions.length := by
    rw [hclean]
    exact List.length_filter_le _ _
  have hmem : ∀ kv, kv ∈ DistributedSessionManager.cleanup_expired_internal now
        m.config.ttl_seconds m.sessions ↔
      kv ∈ m.sessions ∧ ¬ ((m.config.ttl_seconds : ℤ) < now - kv.2.last_activity) := by
    intro kv
    rw [hclean, List.mem_filter]
    simp [SessionData.is_expired]
  refine ⟨hmem, ?_⟩
  by_cases h1 : m.sessions.length ≥ m.config.max_sessions
  · by_cases h2 : (DistributedSessionManager.cleanup_expired_internal now
        m.config.ttl_seconds m.sessions).length ≥ m.config.max_sessions
    · have hr1 : (m.create_session now sid uid).1
          = Except.error "Maximum session limit reached" := by
        unfold DistributedSessionManager.create_session
        rw [if_pos h1, if_pos h2]
      have hr2 : (m.create_session now sid uid).2.sessions
          = DistributedSessionManager.cleanup_expired_internal now
              m.config.ttl_seconds m.sessions := by
        unfold DistributedSessionManager.create_session
        rw [if_pos h1, if_pos h2]
      refine ⟨by rw [hr1]; simp [h1, h2], fun _ => hr2, ?_, ?_⟩
      · intro hcon
        rw [hr1] at hcon
        exact absurd hcon (by simp)
      · rw [hr2]
        exact le_trans hcleanlen hcap
    · have hfresh2 : sid ∉ (DistributedSessionManager.cleanup_expired_internal now
          m.config.ttl_seconds m.sessions).map Prod.fst := by
        rw [hclean]
        exact key_not_mem_filter _ hfresh
      have hr1 : (m.create_session now sid uid).1 = Except.ok sid := by
        unfold DistributedSessionManager.create_session
        rw [if_pos h1, if_neg h2]
      have hr2 : (m.create_session now sid uid).2.sessions
          = smInsert sid { SessionData.mk0 sid now with user_id := uid }
              (DistributedSessionManager.cleanup_expired_internal now
                m.config.ttl_seconds m.sessions) := by
        unfold DistributedSessionManager.create_session
        rw [if_pos h1, if_neg h2]
      rw [smInsert_fresh _ hfresh2] at hr2
      refine ⟨by rw [hr1]; simp [h2], ?_, ?_, ?_⟩
      · intro hcon
        rw [hr1] at hcon
        exact absurd hcon (by simp)
      · intro _
        rw [hr2]
        exact smGet_append_self sid _ _ hfresh2
      · rw [hr2]
        simp only [List.length_append, List.length_cons, List.length_nil]
        omega
  · have hr1 : (m.create_session now sid uid).1 = Except.ok sid := by
      unfold DistributedSessionManager.create_session
      rw [if_neg h1]
    have hr2 : (m.create_session now sid uid).2.sessions
        = smInsert sid { SessionData.mk0 sid now with user_id := uid }
            m.sessions := by
      unfold DistributedSessionManager.create_session
      rw [if_neg h1]
    rw [smInsert_fresh _ hfresh] at hr2
    refine ⟨by rw [hr1]; simp [h1], ?_, ?_, ?_⟩
    · intro hcon
      rw [hr1] at hcon
      exact absurd hcon (by simp)
    · intro _
      rw [hr2]
      exact smGet_append_self sid _ _ hfresh
    · rw [hr2]
      simp only [List.length_append, List.length_cons, List.length_nil]
      omega

/-- C10: on a session id that is not in the registry, `end_session` still
returns success and leaves the map unchanged, while `touch_session`,
`update_state` and `set_metadata` return the session-not-found error and
leave the map unchanged. -/
theorem session_c10_unknown_ops (m : DistributedSessionManager) (now : ℤ)
    (sid key value : String) (st : SessionState)
    (habs : sid ∉ m.sessions.map Prod.fst) :
    (m.end_session sid).1 = Except.ok () ∧
    (m.end_session sid).2.sessions = m.sessions ∧
    (m.touch_session now sid).1 = Except.error "Session not found" ∧
    (m.touch_session now sid).2.sessions = m.sessions ∧
    (m.update_state now sid st).1 = Except.error "Session not found" ∧
    (m.update_state now sid st).2.sessions = m.sessions ∧
    (m.set_metadata sid key value).1 = Except.error "Session not found" ∧
    (m.set_metadata sid key value).2.sessions = m.sessions := by
  have hany := any_key_eq_false habs
  have hrm : smRemove sid m.sessions = m.sessions := by
    unfold smRemove
    rw [List.filter_eq_self]
    intro x hx
    simp only [decide_eq_true_eq]
    intro hc
    exact habs (hc ▸ List.mem_map_of_mem Prod.fst hx)
  refine ⟨rfl, ?_, ?_, ?_, ?_, ?_, ?_, ?_⟩
  · show (m.end_session sid).2.sessions = m.sessions
    unfold DistributedSessionManager.end_session
    rw [hany]
    simp only [Bool.false_eq_true, if_false]
    exact hrm
  · unfold DistributedSessionManager.touch_session
    rw [hany]
    simp
  · unfold DistributedSessionManager.touch_session
    rw [hany]
    simp
  · unfold DistributedSessionManager.update_state
    rw [hany]
    simp
  · unfold DistributedSessionManager.update_state
    rw [hany]
    simp
  · unfold DistributedSessionManager.set_metadata
    rw [hany]
    simp
  · unfold DistributedSessionManager.set_metadata
    rw [hany]
    simp

/-- Witness for `session_c9_create` at the at-capacity manager `mgrC9` with a
stale resident session, creating fresh session `"b"` at time `100`. -/
theorem session_c9_create_witness :
    (∀ kv, kv ∈ DistributedSessionManager.cleanup_expired_internal 100
          mgrC9.config.ttl_seconds mgrC9.sessions ↔
        kv ∈ mgrC9.sessions ∧
          ¬ ((mgrC9.config.ttl_seconds : ℤ) < 100 - kv.2.last_activity)) ∧
    ((mgrC9.create_session 100 "b" none).1
        = Except.error "Maximum session limit reached" ↔
      (mgrC9.config.max_sessions ≤ mgrC9.sessions.length ∧
       mgrC9.config.max_sessions ≤
         (DistributedSessionManager.cleanup_expired_internal 100
           mgrC9.config.ttl_seconds mgrC9.sessions).length)) ∧
    ((mgrC9.create_session 100 "b" none).1
        = Except.error "Maximum session limit reached" →
      (mgrC9.create_session 100 "b" none).2.sessions
        = DistributedSessionManager.cleanup_expired_internal 100
            mgrC9.config.ttl_seconds mgrC9.sessions) ∧
    ((mgrC9.create_session 100 "b" none).1 = Except.ok "b" →
      smGet "b" (mgrC9.create_session 100 "b" none).2.sessions
        = some { session_id := "b", user_id := none, created_at := 100,
                 last_activity := 100, state := SessionState.Active,
                 metadata := [] }) ∧
    (mgrC9.create_session 100 "b" none).2.sessions.length
        ≤ mgrC9.config.max_sessions :=
  session_c9_create mgrC9 100 "b" none (by decide) (by decide) (by decide)

/-- Witness for `session_c10_unknown_ops` at `mgrC9` with the unknown id
`"b"`. -/
theorem session_c10_unknown_ops_witness :
    (mgrC9.end_session "b").1 = Except.ok () ∧
    (mgrC9.end_session "b").2.sessions = mgrC9.sessions ∧
    (mgrC9.touch_session 100 "b").1 = Except.error "Session not found" ∧
    (mgrC9.touch_session 100 "b").2.sessions = mgrC9.sessions ∧
    (mgrC9.update_state 100 "b" SessionState.Paused).1
        = Except.error "Session not found" ∧
    (mgrC9.update_state 100 "b" SessionState.Paused).2.sessions = mgrC9.sessions ∧
    (mgrC9.set_metadata "b" "k" "v").1 = Except.error "Session not found" ∧
    (mgrC9.set_metadata "b" "k" "v").2.sessions = mgrC9.sessions :=
  session_c10_unknown_ops mgrC9 100 "b" "k" "v" SessionState.Paused (by decide)

end Amwaj
